import Mathlib

/-
Verification development for the enterprise-copilot repository.

The repository ships the frontend (React, src/frontend) together with the
specification and documentation of the backend capability-resolution and
audit pipeline; the backend implementation files themselves are not part of
the source tree.  Definitions in the Backend namespace are therefore
modelled from the spec (sections 3, 4 and 8), faithful to its words, while
the Frontend namespace embeds the real code of
src/frontend/src/services/api.js.
-/

namespace EnterpriseCopilot

namespace Backend

/-- Modelled from the spec: the closed enumeration of intent categories
(section 3, Intent). -/
inductive Category where
  | FINANCIAL
  | CODE
  | EMPLOYEE_PII
  | POLICY
  | GENERAL
  | ACTION_REQUEST
  deriving DecidableEq, Repr

/-- Modelled from the spec: a Role as held by the Policy Store (section 3):
identifier, granted scopes, explicitly denied scopes, integer sensitivity
ceiling, forbidden intent categories, and the category set copied into
emitted retrieval filters (section 4.3 step 3). -/
structure Role where
  id : String
  granted_scopes : List String
  denied_scopes : List String
  max_sensitivity : Nat
  forbidden_intent_categories : List Category
  granted_categories : List Category
  deriving DecidableEq, Repr

/-- Modelled from the spec: the ephemeral Intent value derived per request
(section 3). -/
structure Intent where
  category : Category
  required_scope : String
  deriving DecidableEq, Repr

/-- Modelled from the spec: the RetrievalFilter passed to the search
collaborator (section 3). -/
structure RetrievalFilter where
  max_sensitivity : Nat
  allowed_categories : List Category
  deriving DecidableEq, Repr

/-- Modelled from the spec: reason codes of a Deny decision
(section 4.3). -/
inductive ReasonCode where
  | FORBIDDEN_CATEGORY
  | SCOPE_MISSING
  deriving DecidableEq, Repr

/-- Modelled from the spec: a Decision is Allow with a filter or Deny with a
reason code and a human-readable message (section 3). -/
inductive Decision where
  | Allow (filter : RetrievalFilter)
  | Deny (reason_code : ReasonCode) (message : String)
  deriving DecidableEq, Repr

/-- Boolean test distinguishing Deny decisions. -/
def Decision.isDeny : Decision → Bool
  | .Allow _ => false
  | .Deny _ _ => true

/-- Human-readable message attached to a FORBIDDEN_CATEGORY denial. -/
def forbiddenCategoryMessage : String :=
  "the intent category is forbidden for this role"

/-- Human-readable message attached to a SCOPE_MISSING denial. -/
def scopeMissingMessage : String :=
  "the required scope is not granted to this role"

/-- Modelled from the spec: the Capability Resolver (section 4.3).  Step 1:
a forbidden intent category yields Deny FORBIDDEN_CATEGORY.  Step 2: a
required scope that is not granted, or is explicitly denied, yields
Deny SCOPE_MISSING.  Step 3: otherwise Allow with a filter carrying the
sensitivity ceiling and granted categories of the role. -/
def resolve (role : Role) (intent : Intent) : Decision :=
  if intent.category ∈ role.forbidden_intent_categories then
    .Deny .FORBIDDEN_CATEGORY forbiddenCategoryMessage
  else if intent.required_scope ∉ role.granted_scopes ∨
      intent.required_scope ∈ role.denied_scopes then
    .Deny .SCOPE_MISSING scopeMissingMessage
  else
    .Allow ⟨role.max_sensitivity, role.granted_categories⟩

/-- Modelled from the spec: one row of the ordered intent-rule table
(section 9): a keyword pattern, the category it selects and the scope that
category requires. -/
structure IntentRule where
  pattern : String
  category : Category
  required_scope : String
  deriving DecidableEq, Repr

/-- Accumulator pass of the tokenizer: split the character stream at each
space, closing the word collected so far. -/
def tokenizeAux : List Char → List Char → List String
  | [], acc => [String.mk acc.reverse]
  | c :: rest, acc =>
    if c = ' ' then String.mk acc.reverse :: tokenizeAux rest []
    else tokenizeAux rest (c :: acc)

/-- Modelled from the spec: normalization of the query text before rule
matching: lower-cased and tokenized on spaces (section 4.2). -/
def normalize (query_text : String) : List String :=
  tokenizeAux (query_text.toList.map Char.toLower) []

/-- Modelled from the spec: a rule matches when its keyword pattern occurs
among the normalized tokens of the query. -/
def ruleMatches (tokens : List String) (r : IntentRule) : Bool :=
  tokens.contains r.pattern

/-- Scope required by the fallback GENERAL intent. -/
def generalScope : String := "READ_GENERAL"

/-- Modelled from the spec: evaluation of the ordered rule table, first
match wins, falling back to GENERAL when no rule matches (section 4.2). -/
def classifyWith : List IntentRule → String → Intent
  | [], _ => ⟨Category.GENERAL, generalScope⟩
  | r :: rest, q =>
    if ruleMatches (normalize q) r then ⟨r.category, r.required_scope⟩
    else classifyWith rest q

/-- Modelled from the spec: the concrete ordered rule table, populated from
the scenarios of section 8 and the persona sketch of the backend README;
financial rules come first, so a query matching both a financial and a code
keyword resolves as FINANCIAL by priority. -/
def intentRules : List IntentRule :=
  [⟨"revenue", Category.FINANCIAL, "READ_FINANCIALS"⟩,
   ⟨"financial", Category.FINANCIAL, "READ_FINANCIALS"⟩,
   ⟨"code", Category.CODE, "READ_CODE"⟩,
   ⟨"function", Category.CODE, "READ_CODE"⟩,
   ⟨"compensation", Category.EMPLOYEE_PII, "READ_EMPLOYEE_PII"⟩,
   ⟨"employee", Category.EMPLOYEE_PII, "READ_EMPLOYEE_PII"⟩,
   ⟨"policy", Category.POLICY, "READ_POLICY"⟩,
   ⟨"ticket", Category.ACTION_REQUEST, "EXECUTE_ACTIONS"⟩]

/-- Modelled from the spec: the Intent Classifier contract
classify(query_text) -> Intent (section 4.2). -/
def classify (query_text : String) : Intent :=
  classifyWith intentRules query_text

/-- Modelled from the spec: the status field of an audit entry
(section 3). -/
inductive AuditStatus where
  | ALLOWED
  | DENIED
  | ERROR
  deriving DecidableEq, Repr

/-- Modelled from the spec: an AuditEntry with monotonic id, timestamp,
actor role, trace id, action, status and details (section 3). -/
structure AuditEntry where
  id : Nat
  timestamp : Nat
  actor_role : String
  trace_id : String
  action : String
  status : AuditStatus
  details : String
  deriving DecidableEq, Repr

/-- Modelled from the spec: the caller-supplied part of an audit entry; the
pipeline itself assigns id and timestamp (section 4.5). -/
structure EntryTemplate where
  actor_role : String
  trace_id : String
  action : String
  status : AuditStatus
  details : String
  deriving DecidableEq, Repr

/-- Modelled from the spec: the shared state of the Audit Pipeline: the id
counter, a logical clock for timestamps, and the append-only log.  The
append path is serialized by the single-writer discipline of section 5, so
every history of record calls, concurrent ones included, is a sequence of
these state transitions. -/
structure AuditState where
  next_id : Nat
  clock : Nat
  entries : List AuditEntry
  deriving DecidableEq, Repr

/-- Modelled from the spec: the empty audit log at process start. -/
def initialAuditState : AuditState := ⟨0, 0, []⟩

/-- Modelled from the spec: record(entry_template) assigns a monotonic id
and timestamp and appends the new entry to the log (section 4.5); nothing
already in the log is touched. -/
def record (s : AuditState) (t : EntryTemplate) : AuditEntry × AuditState :=
  let e : AuditEntry :=
    ⟨s.next_id, s.clock, t.actor_role, t.trace_id, t.action, t.status, t.details⟩
  (e, ⟨s.next_id + 1, s.clock + 1, s.entries ++ [e]⟩)

/-- Modelled from the spec: a whole history of record calls, applied in the
order the single writer serializes them. -/
def runRecords (s : AuditState) (ts : List EntryTemplate) : AuditState :=
  ts.foldl (fun acc t => (record acc t).2) s

/-- Modelled from the spec: query(limit) returns the most recent entries
first (section 4.5); a pure read that leaves the state untouched. -/
def auditQuery (s : AuditState) (limit : Nat) : List AuditEntry :=
  s.entries.reverse.take limit

/-- Modelled from the spec: the outcome of handling one inbound request:
the decision reached, how many calls were issued to the retrieval and
generative-model collaborators, and the audit state after the mandatory
audit append (sections 2 and 8). -/
structure RequestOutcome where
  decision : Decision
  retrieval_calls : Nat
  model_calls : Nat
  audit : AuditState
  deriving Repr

/-- Modelled from the spec: the request pipeline of section 2: classify the
query, resolve against the role, and on Deny short-circuit before any
retrieval or generation call while still recording a DENIED audit entry; on
Allow issue one retrieval call and one model call and record an ALLOWED
entry. -/
def handleQuery (s : AuditState) (role : Role) (trace : String)
    (query_text : String) : RequestOutcome :=
  let intent := classify query_text
  match resolve role intent with
  | .Deny rc msg =>
    ⟨.Deny rc msg, 0, 0,
      (record s ⟨role.id, trace, "chat_query", .DENIED, msg⟩).2⟩
  | .Allow f =>
    ⟨.Allow f, 1, 1,
      (record s ⟨role.id, trace, "chat_query", .ALLOWED, "query allowed"⟩).2⟩

/-- Fixture: the FINANCE role of spec section 8, scenarios A and B. -/
def financeRole : Role :=
  ⟨"FINANCE", ["READ_FINANCIALS"], [], 2, [], [Category.FINANCIAL]⟩

/-- Fixture: a contradictory role granting and denying the same scope. -/
def contradictoryRole : Role :=
  ⟨"CONTRA", ["READ_CODE"], ["READ_CODE"], 1, [], [Category.CODE]⟩

/-- Fixture: an audit entry as record assigns it from the empty log. -/
def sampleEntry : AuditEntry :=
  ⟨0, 0, "FINANCE", "trace-a", "chat_query", AuditStatus.ALLOWED, "ok"⟩

/-- Fixture: an audit state already holding one entry. -/
def sampleState : AuditState := ⟨1, 1, [sampleEntry]⟩

/-- Fixture: a caller-supplied audit template. -/
def sampleTemplate : EntryTemplate :=
  ⟨"FINANCE", "trace-a", "chat_query", AuditStatus.ALLOWED, "ok"⟩

end Backend

namespace Frontend

/-- JavaScript truthiness of the expression a OR b on an optional string:
undefined and the empty string are falsy, so both fall through to the
default (src/frontend/src/services/api.js line 23). -/
def jsStringOr (v : Option String) (dflt : String) : String :=
  match v with
  | none => dflt
  | some s => if s = "" then dflt else s

/-- Default persona used by the request interceptor when window.currentIAMRole
is unset (src/frontend/src/services/api.js line 23). -/
def defaultIAMRole : String := "CHIEF_STRATEGY_OFFICER"

/-- Request headers modelled as a partial map from header name to value. -/
def Headers : Type := String → Option String

/-- Assignment of one header field, as the JavaScript statement
config.headers of key set to value. -/
def setHeader (h : Headers) (k v : String) : Headers :=
  fun x => if x = k then some v else h x

/-- Embedding of the axios request interceptor of
src/frontend/src/services/api.js lines 20 to 30: read window.currentIAMRole,
default it to CHIEF_STRATEGY_OFFICER when falsy, and write the result into
the x-iam-role header of the outgoing config. -/
def requestInterceptor (currentIAMRole : Option String) (h : Headers) :
    Headers :=
  setHeader h "x-iam-role" (jsStringOr currentIAMRole defaultIAMRole)

/-- Splitting of a character stream on the two-newline event boundary,
as the JavaScript call buffer.split of a double newline inside
chatAPI.streamQuery (src/frontend/src/services/api.js line 114): leftmost,
non-overlapping, and the final element is the text after the last
boundary. -/
def splitBlocks : List Char → List (List Char)
  | [] => [[]]
  | [c] => [[c]]
  | c1 :: c2 :: rest =>
    if c1 = '\n' ∧ c2 = '\n' then
      [] :: splitBlocks rest
    else
      let parts := splitBlocks (c2 :: rest)
      (c1 :: parts.headD []) :: parts.tail

/-- Handling of one complete event block (src/frontend/src/services/api.js
lines 117 to 126): a block starting with the data marker has its payload
passed to JSON.parse, modelled by the abstract parameter parse; a parse
failure or a block without the marker yields nothing.  The six dropped
characters are the marker itself. -/
def handleBlock {α : Type} (parse : List Char → Option α)
    (block : List Char) : Option α :=
  if block.take 6 = ("data: ").toList then parse (block.drop 6) else none

/-- Embedding of the read loop of chatAPI.streamQuery
(src/frontend/src/services/api.js lines 107 to 127): append each arriving
chunk to the carry-over buffer, split on event boundaries, keep the final
incomplete piece as the new buffer, and yield the events of the complete
blocks in order; when the reader reports done the remaining buffer is
discarded. -/
def processChunks {α : Type} (parse : List Char → Option α) :
    List Char → List (List Char) → List α
  | _, [] => []
  | buffer, ch :: rest =>
    let parts := splitBlocks (buffer ++ ch)
    (parts.dropLast).filterMap (handleBlock parse) ++
      processChunks parse (parts.getLastD []) rest

/-- Events yielded by streamQuery over a whole delivery, starting from the
empty buffer (src/frontend/src/services/api.js line 107). -/
def streamYields {α : Type} (parse : List Char → Option α)
    (chunks : List (List Char)) : List α :=
  processChunks parse [] chunks

/-- Specification-side reading of the stream: the well-formed server-sent
events of the full response body are the complete boundary-delimited blocks
that carry the data marker and whose payload parses, in order. -/
def sseEvents {α : Type} (parse : List Char → Option α)
    (body : List Char) : List α :=
  ((splitBlocks body).dropLast).filterMap (handleBlock parse)

end Frontend

namespace Backend

/-- Helper: a required scope outside the granted scopes always produces
some Deny decision, whatever the intent category. -/
theorem resolve_deny_of_scope_not_granted (role : Role) (intent : Intent)
    (h : intent.required_scope ∉ role.granted_scopes) :
    ∃ rc msg, resolve role intent = .Deny rc msg := by
  unfold resolve
  by_cases h1 : intent.category ∈ role.forbidden_intent_categories
  · exact ⟨_, _, by rw [if_pos h1]⟩
  · exact ⟨_, _, by rw [if_neg h1, if_pos (Or.inl h)]⟩

/-- Helper: every Deny decision of the Resolver carries one of the two
fixed human-readable messages, hence a nonempty one. -/
theorem resolve_deny_message_nonempty (role : Role) (intent : Intent)
    (rc : ReasonCode) (msg : String)
    (h : resolve role intent = .Deny rc msg) : msg ≠ "" := by
  unfold resolve at h
  split at h
  · injection h with h1 h2
    subst h2
    decide
  · split at h
    · injection h with h1 h2
      subst h2
      decide
    · exact absurd h (by simp)

/-- C1: for every (role, query) pair whose derived intent requires a scope
the role was not granted, the pipeline reaches a Deny decision and issues
zero retrieval calls and zero generative-model calls. -/
theorem deny_short_circuits_collaborators (s : AuditState) (role : Role)
    (trace q : String)
    (h : (classify q).required_scope ∉ role.granted_scopes) :
    (handleQuery s role trace q).decision.isDeny = true ∧
    (handleQuery s role trace q).retrieval_calls = 0 ∧
    (handleQuery s role trace q).model_calls = 0 := by
  obtain ⟨rc, msg, hres⟩ := resolve_deny_of_scope_not_granted role (classify q) h
  simp [handleQuery, hres, Decision.isDeny]

/-- Witness for C1 at spec scenario B: the FINANCE role asking a CODE query
is denied with no collaborator calls. -/
theorem deny_short_circuits_collaborators_witness :
    (classify "show me the authentication function").required_scope ∉
        financeRole.granted_scopes ∧
    (handleQuery initialAuditState financeRole "trace-b"
        "show me the authentication function").retrieval_calls = 0 ∧
    (handleQuery initialAuditState financeRole "trace-b"
        "show me the authentication function").model_calls = 0 :=
  ⟨by decide,
   (deny_short_circuits_collaborators initialAuditState financeRole "trace-b"
      "show me the authentication function" (by decide)).2⟩

/-- C2: resolve follows exactly the three-step algorithm of spec section
4.3 — forbidden category first, then missing or denied scope, otherwise
Allow with the filter built from the role; being a total Lean function it
returns a Decision value on every input, with no exception path. -/
theorem resolve_follows_algorithm (role : Role) (intent : Intent) :
    (intent.category ∈ role.forbidden_intent_categories →
      resolve role intent = .Deny .FORBIDDEN_CATEGORY forbiddenCategoryMessage) ∧
    (intent.category ∉ role.forbidden_intent_categories →
      (intent.required_scope ∉ role.granted_scopes ∨
        intent.required_scope ∈ role.denied_scopes) →
      resolve role intent = .Deny .SCOPE_MISSING scopeMissingMessage) ∧
    (intent.category ∉ role.forbidden_intent_categories →
      intent.required_scope ∈ role.granted_scopes →
      intent.required_scope ∉ role.denied_scopes →
      resolve role intent =
        .Allow ⟨role.max_sensitivity, role.granted_categories⟩) := by
  refine ⟨fun h1 => ?_, fun h1 h2 => ?_, fun h1 h2 h3 => ?_⟩
  · unfold resolve
    rw [if_pos h1]
  · unfold resolve
    rw [if_neg h1, if_pos h2]
  · unfold resolve
    rw [if_neg h1, if_neg (fun hc => hc.elim (fun ha => ha h2) h3)]

/-- Witness for C2 at spec scenario A: the FINANCE role with a FINANCIAL
intent takes the Allow branch of the algorithm. -/
theorem resolve_follows_algorithm_witness :
    resolve financeRole ⟨Category.FINANCIAL, "READ_FINANCIALS"⟩ =
      Decision.Allow ⟨2, [Category.FINANCIAL]⟩ :=
  (resolve_follows_algorithm financeRole
      ⟨Category.FINANCIAL, "READ_FINANCIALS"⟩).2.2
    (by decide) (by decide) (by decide)

/-- C3: deny-overrides — when the required scope is both granted and
explicitly denied, resolve returns a Deny decision; the Resolver is a total
function, so a contradictory role definition never raises. -/
theorem resolve_deny_overrides (role : Role) (intent : Intent)
    (_hg : intent.required_scope ∈ role.granted_scopes)
    (hd : intent.required_scope ∈ role.denied_scopes) :
    (resolve role intent).isDeny = true := by
  unfold resolve
  by_cases h1 : intent.category ∈ role.forbidden_intent_categories
  · rw [if_pos h1]
    rfl
  · rw [if_neg h1, if_pos (Or.inr hd)]
    rfl

/-- Witness for C3: a role granting and denying READ_CODE denies an intent
requiring READ_CODE. -/
theorem resolve_deny_overrides_witness :
    (resolve contradictoryRole ⟨Category.CODE, "READ_CODE"⟩).isDeny = true :=
  resolve_deny_overrides contradictoryRole ⟨Category.CODE, "READ_CODE"⟩
    (by decide) (by decide)

/-- Helper invariant for the audit run: starting from a state whose entries
all carry ids below the counter and are pairwise increasing, any sequence
of record calls preserves both facts. -/
theorem runRecords_invariant (ts : List EntryTemplate) :
    ∀ s : AuditState, (∀ e ∈ s.entries, e.id < s.next_id) →
      s.entries.Pairwise (fun a b => a.id < b.id) →
      ((runRecords s ts).entries).Pairwise (fun a b => a.id < b.id) ∧
      ∀ e ∈ (runRecords s ts).entries, e.id < (runRecords s ts).next_id := by
  induction ts with
  | nil => exact fun s h1 h2 => ⟨h2, h1⟩
  | cons t ts ih =>
    intro s h1 h2
    have hstep : runRecords s (t :: ts) = runRecords (record s t).2 ts := rfl
    rw [hstep]
    apply ih
    · intro e he
      simp only [record, List.mem_append, List.mem_singleton] at he
      rcases he with he | he
      · exact Nat.lt_succ_of_lt (h1 e he)
      · subst he
        exact Nat.lt_succ_self _
    · simp only [record]
      rw [List.pairwise_append]
      refine ⟨h2, List.pairwise_singleton _ _, ?_⟩
      intro a ha b hb
      rw [List.mem_singleton] at hb
      subst hb
      exact h1 a ha

/-- C5: audit entry ids are strictly increasing across any history of
record calls — every later call creates an entry with a strictly greater id
than every earlier one; concurrent callers are serialized by the
single-writer append discipline of spec section 5, so every concurrent
history is one such sequence. -/
theorem audit_ids_strictly_increasing (ts : List EntryTemplate) :
    ((runRecords initialAuditState ts).entries).Pairwise
      (fun a b => a.id < b.id) :=
  (runRecords_invariant ts initialAuditState (by simp [initialAuditState])
    (by simp [initialAuditState])).1

/-- C6: the audit log is append-only — record appends the freshly created
entry at the end and every entry present before is still present, with
identical field values, afterwards; record is the only state-changing
operation of the pipeline, and query is a pure read of the state. -/
theorem audit_log_append_only (s : AuditState) (t : EntryTemplate) :
    (record s t).2.entries = s.entries ++ [(record s t).1] ∧
    ∀ e ∈ s.entries, e ∈ (record s t).2.entries := by
  refine ⟨rfl, fun e he => ?_⟩
  simp only [record, List.mem_append]
  exact Or.inl he

/-- Witness for C6: the pre-existing entry of the sample state survives a
further record call unchanged. -/
theorem audit_log_append_only_witness :
    sampleEntry ∈ (record sampleState sampleTemplate).2.entries :=
  (audit_log_append_only sampleState sampleTemplate).2 sampleEntry
    (by decide)

/-- C4: every RetrievalFilter emitted by an Allow decision carries exactly
the sensitivity ceiling and the category set of the originating role, so no
filter ever exceeds the configured ceiling and the maximum over all allowed
intents is the ceiling itself. -/
theorem allow_filter_matches_role_ceiling (role : Role) (intent : Intent)
    (f : RetrievalFilter) (h : resolve role intent = .Allow f) :
    f.max_sensitivity = role.max_sensitivity ∧
    f.allowed_categories = role.granted_categories := by
  unfold resolve at h
  split at h
  · exact absurd h (by simp)
  · split at h
    · exact absurd h (by simp)
    · injection h with h1
      subst h1
      exact ⟨rfl, rfl⟩

/-- Witness for C4: the filter emitted for the FINANCE role carries its
ceiling 2 and its category set. -/
theorem allow_filter_matches_role_ceiling_witness :
    (RetrievalFilter.mk 2 [Category.FINANCIAL]).max_sensitivity =
        financeRole.max_sensitivity ∧
    (RetrievalFilter.mk 2 [Category.FINANCIAL]).allowed_categories =
        financeRole.granted_categories :=
  allow_filter_matches_role_ceiling financeRole
    ⟨Category.FINANCIAL, "READ_FINANCIALS"⟩ ⟨2, [Category.FINANCIAL]⟩
    (by decide)

/-- C7: a Deny decision is an expected outcome, not an error: the pipeline
returns the Deny value to the caller, and it appends exactly one audit
entry with status DENIED carrying the nonempty human-readable reason. -/
theorem deny_yields_denied_audit_entry (s : AuditState) (role : Role)
    (trace q : String) (rc : ReasonCode) (msg : String)
    (h : resolve role (classify q) = .Deny rc msg) :
    (handleQuery s role trace q).decision = .Deny rc msg ∧
    (handleQuery s role trace q).audit.entries =
      s.entries ++
        [⟨s.next_id, s.clock, role.id, trace, "chat_query",
          AuditStatus.DENIED, msg⟩] ∧
    msg ≠ "" := by
  refine ⟨?_, ?_, resolve_deny_message_nonempty role (classify q) rc msg h⟩
  · simp [handleQuery, h]
  · simp [handleQuery, h, record]

/-- Witness for C7 at spec scenario B: the denied CODE query of the FINANCE
role is surfaced as a Deny value with the SCOPE_MISSING message. -/
theorem deny_yields_denied_audit_entry_witness :
    (handleQuery initialAuditState financeRole "trace-c"
        "show me the authentication function").decision =
      Decision.Deny ReasonCode.SCOPE_MISSING scopeMissingMessage :=
  (deny_yields_denied_audit_entry initialAuditState financeRole "trace-c"
      "show me the authentication function" ReasonCode.SCOPE_MISSING
      scopeMissingMessage (by decide)).1

/-- C8: the classifier evaluates the ordered rule table first match wins —
when every rule before r fails on the normalized query and r matches, the
intent is fixed by r, whatever later rules would say; and when no rule at
all matches, the category falls back to GENERAL.  As a pure function of the
query text it is deterministic and side-effect-free. -/
theorem classify_first_match_wins (rules pre post : List IntentRule)
    (r : IntentRule) (q : String) :
    (rules = pre ++ r :: post →
      (∀ p ∈ pre, ruleMatches (normalize q) p = false) →
      ruleMatches (normalize q) r = true →
      classifyWith rules q = ⟨r.category, r.required_scope⟩) ∧
    ((∀ p ∈ rules, ruleMatches (normalize q) p = false) →
      classifyWith rules q = ⟨Category.GENERAL, generalScope⟩) := by
  constructor
  · intro hsplit hpre hr
    subst hsplit
    induction pre with
    | nil => simp [classifyWith, hr]
    | cons p rest ih =>
      have hp : ruleMatches (normalize q) p = false := hpre p (by simp)
      simp only [List.cons_append, classifyWith, hp]
      exact ih fun p' hp' => hpre p' (by simp [hp'])
  · intro hnone
    induction rules with
    | nil => rfl
    | cons p rest ih =>
      have hp : ruleMatches (normalize q) p = false := hnone p (by simp)
      simp only [classifyWith, hp]
      exact ih fun p' hp' => hnone p' (by simp [hp'])

/-- Witness for C8: in the concrete table the code rule is the first match
for one query, and a query matching no rule falls back to GENERAL. -/
theorem classify_first_match_wins_witness :
    classifyWith intentRules "review the code" =
      ⟨Category.CODE, "READ_CODE"⟩ ∧
    classifyWith intentRules "hello there" =
      ⟨Category.GENERAL, generalScope⟩ :=
  ⟨(classify_first_match_wins intentRules
      [⟨"revenue", Category.FINANCIAL, "READ_FINANCIALS"⟩,
       ⟨"financial", Category.FINANCIAL, "READ_FINANCIALS"⟩]
      [⟨"function", Category.CODE, "READ_CODE"⟩,
       ⟨"compensation", Category.EMPLOYEE_PII, "READ_EMPLOYEE_PII"⟩,
       ⟨"employee", Category.EMPLOYEE_PII, "READ_EMPLOYEE_PII"⟩,
       ⟨"policy", Category.POLICY, "READ_POLICY"⟩,
       ⟨"ticket", Category.ACTION_REQUEST, "EXECUTE_ACTIONS"⟩]
      ⟨"code", Category.CODE, "READ_CODE"⟩ "review the code").1
    (by decide) (by decide) (by decide),
   (classify_first_match_wins intentRules [] []
      ⟨"code", Category.CODE, "READ_CODE"⟩ "hello there").2
    (by decide)⟩

end Backend

namespace Frontend

/-- Helper: unfolding of splitBlocks at an event boundary. -/
theorem splitBlocks_cons_sep (xs : List Char) :
    splitBlocks ('\n' :: '\n' :: xs) = [] :: splitBlocks xs := by
  simp [splitBlocks]

/-- Helper: unfolding of splitBlocks when the first two characters are not
an event boundary. -/
theorem splitBlocks_cons_cons_not_sep (c1 c2 : Char) (xs : List Char)
    (h : ¬(c1 = '\n' ∧ c2 = '\n')) :
    splitBlocks (c1 :: c2 :: xs) =
      (c1 :: (splitBlocks (c2 :: xs)).headD []) ::
        (splitBlocks (c2 :: xs)).tail := by
  simp [splitBlocks, h]

/-- Helper: splitting always yields at least one part. -/
theorem splitBlocks_ne_nil (l : List Char) : splitBlocks l ≠ [] := by
  induction l using splitBlocks.induct with
  | case1 => simp [splitBlocks]
  | case2 c => simp [splitBlocks]
  | case3 c1 c2 rest h ih => simp [splitBlocks, h]
  | case4 c1 c2 rest h ih => simp [splitBlocks, h]

/-- Helper: a split with a single part reproduces the whole input, so that
single part contains no event boundary. -/
theorem splitBlocks_singleton (a h : List Char)
    (hs : splitBlocks a = [h]) : h = a := by
  induction a using splitBlocks.induct generalizing h with
  | case1 =>
    simp [splitBlocks] at hs
    exact hs
  | case2 c =>
    simp [splitBlocks] at hs
    exact hs.symm
  | case3 c1 c2 rest hsep ih =>
    obtain ⟨h1, h2⟩ := hsep
    subst h1
    subst h2
    rw [splitBlocks_cons_sep] at hs
    obtain ⟨heq, htl⟩ := List.cons.inj hs
    exact absurd htl (splitBlocks_ne_nil rest)
  | case4 c1 c2 rest hsep ih =>
    rw [splitBlocks_cons_cons_not_sep c1 c2 rest hsep] at hs
    obtain ⟨p, ps, hP⟩ :=
      List.exists_cons_of_ne_nil (splitBlocks_ne_nil (c2 :: rest))
    rw [hP] at hs
    obtain ⟨heq, htl⟩ := List.cons.inj hs
    simp only [List.headD_cons, List.tail_cons] at heq htl
    subst htl
    have hp : p = c2 :: rest := ih p (by rw [hP])
    rw [← heq, hp]

/-- Helper: splitting a concatenation splits the left part first and carries
its final incomplete piece into the right part — exactly what the buffered
read loop does chunk by chunk. -/
theorem splitBlocks_append (a b : List Char) :
    splitBlocks (a ++ b) =
      (splitBlocks a).dropLast ++
        splitBlocks ((splitBlocks a).getLastD [] ++ b) := by
  induction a using splitBlocks.induct with
  | case1 => simp [splitBlocks]
  | case2 c => simp [splitBlocks]
  | case3 c1 c2 rest hsep ih =>
    obtain ⟨h1, h2⟩ := hsep
    subst h1
    subst h2
    rw [List.cons_append, List.cons_append, splitBlocks_cons_sep,
      splitBlocks_cons_sep, ih]
    obtain ⟨p, ps, hP⟩ := List.exists_cons_of_ne_nil (splitBlocks_ne_nil rest)
    rw [hP]
    simp [List.getLastD_cons]
  | case4 c1 c2 rest hsep ih =>
    rw [List.cons_append, List.cons_append,
      splitBlocks_cons_cons_not_sep c1 c2 (rest ++ b) hsep,
      splitBlocks_cons_cons_not_sep c1 c2 rest hsep,
      ← List.cons_append, ih]
    obtain ⟨p, ps, hP⟩ :=
      List.exists_cons_of_ne_nil (splitBlocks_ne_nil (c2 :: rest))
    rw [hP]
    cases ps with
    | nil =>
      have hp : p = c2 :: rest := splitBlocks_singleton _ _ hP
      subst hp
      simp [splitBlocks_cons_cons_not_sep c1 c2 (rest ++ b) hsep]
    | cons p2 ps2 =>
      simp only [List.headD_cons, List.tail_cons, List.dropLast_cons₂,
        List.getLastD_cons, List.cons_append]

/-- Helper: the final part of a split contains no event boundary, so it is
a valid carry-over buffer for the next chunk. -/
theorem splitBlocks_getLastD (a : List Char) :
    splitBlocks ((splitBlocks a).getLastD []) =
      [(splitBlocks a).getLastD []] := by
  induction a using splitBlocks.induct with
  | case1 => rfl
  | case2 c => rfl
  | case3 c1 c2 rest hsep ih =>
    obtain ⟨h1, h2⟩ := hsep
    subst h1
    subst h2
    rw [splitBlocks_cons_sep, List.getLastD_cons]
    exact ih
  | case4 c1 c2 rest hsep ih =>
    rw [splitBlocks_cons_cons_not_sep c1 c2 rest hsep]
    obtain ⟨p, ps, hP⟩ :=
      List.exists_cons_of_ne_nil (splitBlocks_ne_nil (c2 :: rest))
    rw [hP] at ih ⊢
    cases ps with
    | nil =>
      have hp : p = c2 :: rest := splitBlocks_singleton _ _ hP
      subst hp
      show splitBlocks (c1 :: c2 :: rest) = [c1 :: c2 :: rest]
      rw [splitBlocks_cons_cons_not_sep c1 c2 rest hsep, hP]
      rfl
    | cons p2 ps2 =>
      simp only [List.headD_cons, List.tail_cons, List.getLastD_cons] at ih ⊢
      exact ih

/-- Helper: the buffered chunk-by-chunk read loop yields exactly the events
of the complete blocks of the concatenated delivery, for any separator-free
starting buffer. -/
theorem processChunks_join {α : Type} (parse : List Char → Option α) :
    ∀ (chunks : List (List Char)) (buffer : List Char),
      splitBlocks buffer = [buffer] →
      processChunks parse buffer chunks =
        ((splitBlocks (buffer ++ chunks.flatten)).dropLast).filterMap
          (handleBlock parse) := by
  intro chunks
  induction chunks with
  | nil =>
    intro buffer hb
    simp [processChunks, hb]
  | cons ch rest ih =>
    intro buffer hb
    rw [show processChunks parse buffer (ch :: rest) =
        ((splitBlocks (buffer ++ ch)).dropLast).filterMap (handleBlock parse) ++
          processChunks parse ((splitBlocks (buffer ++ ch)).getLastD []) rest
      from rfl]
    rw [ih _ (splitBlocks_getLastD (buffer ++ ch))]
    rw [List.flatten_cons, ← List.append_assoc]
    rw [splitBlocks_append (buffer ++ ch) rest.flatten]
    obtain ⟨y, ys, hY⟩ := List.exists_cons_of_ne_nil
      (splitBlocks_ne_nil
        ((splitBlocks (buffer ++ ch)).getLastD [] ++ rest.flatten))
    rw [hY, List.dropLast_append_cons, List.filterMap_append, ← hY]

/-- C10: chatAPI.streamQuery yields exactly the well-formed server-sent
events of the response, however the body is chunked by the transport: for
every complete boundary-delimited block that starts with the data marker
and whose payload parses, the parsed object is yielded in arrival order,
and a malformed block is skipped rather than terminating the stream — the
loop is a total function, so nothing is thrown to the consumer. -/
theorem streamQuery_yields_wellformed_events {α : Type}
    (parse : List Char → Option α) (chunks : List (List Char)) :
    streamYields parse chunks = sseEvents parse chunks.flatten := by
  have h := processChunks_join parse chunks [] rfl
  simpa [streamYields, sseEvents] using h

/-- C9: every request sent through the axios apiClient carries an
x-iam-role header: the interceptor always writes the header, with the
current role when one is set and nonempty, and silently with the default
CHIEF_STRATEGY_OFFICER when window.currentIAMRole is unset. -/
theorem api_client_always_sends_iam_role_header (w : Option String)
    (h : Headers) :
    requestInterceptor w h "x-iam-role" =
        some (jsStringOr w defaultIAMRole) ∧
    requestInterceptor none h "x-iam-role" =
        some "CHIEF_STRATEGY_OFFICER" := by
  constructor <;>
    simp [requestInterceptor, setHeader, jsStringOr, defaultIAMRole]

end Frontend

end EnterpriseCopilot
